import Mathlib

/-!
Shallow embedding of the pain-point analysis pipeline
(FastAPI service in `main.py`, processors in `processors/`, ORM models in
`database/models.py`).

Conventions of the embedding:
* SQLAlchemy rows become Lean structures; nullable columns become `Option`.
* The database is a `List` of rows; queries are `filter`/`take` over it.
* Python `float` confidence scores become `ℚ`; Python ints become `Int`/`Nat`.
* Python `//` (floor division) becomes `Int.fdiv`.
* The two network adapters (Cloudflare sentiment classifier, Anthropic
  extraction model) are black-box function parameters; a fallible call is an
  `Except`/`Option` result.  A run-level exception (adapter unconstructable,
  per `PainPointExtractor.__init__`) is an `Except.error` passed to the run.
-/

namespace PainPointAnalyzer

/-- Social-proof metadata stored in `raw_data.source_metadata` (JSONB).
Only the keys read by `_calculate_opportunity` are modelled: a key that may be
absent from the dict is an `Option`.  `none` at the `Option SourceMetadata`
level stands for a falsy Python value (`None` or `{}`). -/
structure SourceMetadata where
  score : Option Int
  num_comments : Option Int
  deriving Repr, DecidableEq

/-- Row of `raw_data` (`database/models.py`, class `RawData`).  Timestamp
columns are omitted (no claim mentions them); `content` is `nullable=False`
hence a plain `String`. -/
structure RawData where
  id : Nat
  source : String
  source_id : String
  content : String
  author : Option String
  url : Option String
  subreddit : Option String
  source_metadata : Option SourceMetadata
  sentiment_score : Option ℚ
  is_negative : Option Bool
  processed : Bool
  deriving Repr, DecidableEq

/-- Row of `pain_points` (`database/models.py`, class `PainPoint`), restricted
to the columns the pipeline writes in `main.py`. -/
structure PainPoint where
  raw_data_id : Option Nat
  extraction_session_id : Option Nat
  problem_statement : String
  category : String
  severity : String
  context : Option String
  suggested_solution : Option String
  tags : List String
  target_audience : Option String
  related_industry : Option String
  opportunity_score : Int
  deriving Repr, DecidableEq

/-- Row of `extraction_sessions` (`database/models.py`).  The nullable
`completed_at` timestamp is modelled as `Option Unit` (recorded or not);
breakdown JSONB dicts are association lists in insertion order. -/
structure ExtractionSession where
  id : Nat
  items_processed : Nat
  pain_points_extracted : Nat
  items_skipped : Nat
  avg_opportunity_score : Option ℚ
  high_severity_count : Nat
  critical_severity_count : Nat
  category_breakdown : Option (List (String × Nat))
  severity_breakdown : Option (List (String × Nat))
  completed_at : Option Unit
  status : String
  error_message : Option String
  deriving Repr, DecidableEq

/-! ## Opportunity scoring (`processors/pain_point_extractor.py`) -/

/-- The `severity_scores` dict lookup with default 0 in
`_calculate_opportunity`. -/
def severity_bonus (severity : String) : Int :=
  if severity = "critical" then 30
  else if severity = "high" then 20
  else if severity = "medium" then 10
  else if severity = "low" then 5
  else 0

/-- Embeds `PainPointExtractor._calculate_opportunity`
(`processors/pain_point_extractor.py` lines 86–99): base 50, severity bonus,
social-proof bonus when `metadata` is truthy, then `min(score, 100)`. -/
def calculate_opportunity (severity : String) (metadata : Option SourceMetadata) : Int :=
  let score := 50 + severity_bonus severity
  let score :=
    match metadata with
    | none => score
    | some m => score + min ((m.score.getD 0).fdiv 10) 15
        + min ((m.num_comments.getD 0).fdiv 5) 10
  min score 100

/-- Modelled from the spec wording (§4.3 step 3) for the refinement claim on
the scoring formula: base = 50, severity bonus (critical +30, high +20,
medium +10, low +5, unknown +0), social-proof bonus only if metadata present
`min(floor(engagementScore/10), 15) + min(floor(commentCount/5), 10)`, final
score `min(base + severityBonus + socialBonus, 100)`. -/
def spec_opportunity_score (severity : String) (metadata : Option SourceMetadata) : Int :=
  let base : Int := 50
  let severityBonus : Int :=
    if severity = "critical" then 30
    else if severity = "high" then 20
    else if severity = "medium" then 10
    else if severity = "low" then 5
    else 0
  let socialBonus : Int :=
    match metadata with
    | none => 0
    | some m => min ((m.score.getD 0).fdiv 10) 15 + min ((m.num_comments.getD 0).fdiv 5) 10
  min (base + severityBonus + socialBonus) 100

/-! ## Sentiment filter (`processors/sentiment_filter.py`) -/

/-- Result dict of the Cloudflare classifier call: a label and a confidence. -/
structure SentimentResult where
  label : String
  score : ℚ
  deriving Repr, DecidableEq

/-- An element of the `items_dict` lists handed to the processors: the
`{'id': ..., 'content': ...}` dicts. -/
structure ContentItem where
  id : Nat
  content : String
  deriving Repr, DecidableEq

/-- An item kept by `filter_negative`: the input dict with
`sentiment_score` added (and `is_negative = True`, which is implied by
membership in the filtered list). -/
structure ScoredItem where
  id : Nat
  content : String
  sentiment_score : ℚ
  deriving Repr, DecidableEq

/-- Embeds `SentimentFilter.analyze_sentiment`: the text is truncated to 1000
characters before the adapter call, and any adapter error is swallowed into a
neutral `{'label': 'NEUTRAL', 'score': 0.5}` result. -/
def analyze_sentiment (classify : String → Except String SentimentResult)
    (text : String) : SentimentResult :=
  match classify (text.take 1000) with
  | .ok r => r
  | .error _ => ⟨"NEUTRAL", 1/2⟩

/-- Embeds `SentimentFilter.filter_negative` (lines 48–70): keep an item iff
its label is NEGATIVE with confidence strictly above 0.7, storing the
confidence negated. -/
def filter_negative (classify : String → Except String SentimentResult)
    (items : List ContentItem) : List ScoredItem :=
  items.filterMap fun item =>
    let sentiment := analyze_sentiment classify item.content
    if sentiment.label = "NEGATIVE" ∧ (7/10 : ℚ) < sentiment.score then
      some ⟨item.id, item.content, -sentiment.score⟩
    else
      none

/-! ## Ingestion gate (`main.py`, `scrape_reddit_by_sort`, lines 253–284) -/

/-- One scraped item as produced by a connector (the dicts returned by
`RedditScraper.scrape_by_sort`). -/
structure Candidate where
  source : String
  source_id : String
  content : String
  author : Option String
  url : Option String
  subreddit : Option String
  source_metadata : Option SourceMetadata
  deriving Repr, DecidableEq

/-- The `RawData(...)` row built from one candidate in the save loop of
`scrape_reddit_by_sort`; `next_id` models the autoincrement primary key. -/
def candidate_row (next_id : Nat) (c : Candidate) : RawData :=
  { id := next_id, source := c.source, source_id := c.source_id, content := c.content,
    author := c.author, url := c.url, subreddit := c.subreddit,
    source_metadata := c.source_metadata, sentiment_score := none, is_negative := none,
    processed := false }

/-- Embeds the per-item save loop of `scrape_reddit_by_sort` (`main.py`
lines 253–284): each candidate is added and committed on its own; a
uniqueness violation on `source_id` (the `unique=True` column,
`database/models.py` line 13) raises `IntegrityError`, which is caught,
rolled back, and counted as skipped, and the loop continues.  Returns the
store, `items_added`, and `items_skipped`. -/
def ingest_batch : List RawData → Nat → List Candidate → List RawData × Nat × Nat
  | db, _, [] => (db, 0, 0)
  | db, next_id, c :: rest =>
    if c.source_id ∈ db.map RawData.source_id then
      let r := ingest_batch db next_id rest
      (r.1, r.2.1, r.2.2 + 1)
    else
      let r := ingest_batch (db ++ [candidate_row next_id c]) (next_id + 1) rest
      (r.1, r.2.1 + 1, r.2.2)

/-! ## Sentiment pass (`main.py`, `process_sentiment`, lines 375–417) -/

/-- Return value of the `/process/sentiment` endpoint together with the
mutated store. -/
structure SentimentRunResult where
  db : List RawData
  items_processed : Nat
  items_negative : Nat
  deriving Repr, DecidableEq

/-- The selection query of the sentiment pass (`main.py` lines 380–383, and
identically `tasks/scheduler.py` lines 66–69): unprocessed items with a null
sentiment score, up to `limit`. -/
def select_sentiment_items (db : List RawData) (limit : Nat) : List RawData :=
  (db.filter fun r => !r.processed && r.sentiment_score.isNone).take limit

/-- Embeds the `/process/sentiment` endpoint: select, classify through
`filter_negative`, then mark every selected item processed and store the
signed score on the negative ones.  Rows are matched by primary key. -/
def process_sentiment (classify : String → Except String SentimentResult)
    (limit : Nat) (db : List RawData) : SentimentRunResult :=
  let items := select_sentiment_items db limit
  if items.isEmpty then ⟨db, 0, 0⟩
  else
    let items_dict := items.map fun r => ContentItem.mk r.id r.content
    let negative_items := filter_negative classify items_dict
    let negative_ids := negative_items.map ScoredItem.id
    let db' := db.map fun r =>
      if r.id ∈ items.map RawData.id then
        let r := if r.id ∈ negative_ids then
            { r with is_negative := some true,
                     sentiment_score :=
                       (negative_items.find? fun n => n.id == r.id).map
                         ScoredItem.sentiment_score }
          else r
        { r with processed := true }
      else r
    ⟨db', items.length, negative_items.length⟩

/-! ## Pain point extraction (`processors/pain_point_extractor.py` and the
`/extract/pain-points` endpoint of `main.py`, lines 423–568) -/

/-- Structured fields parsed from the extraction adapter's JSON response
(`PainPointExtractor.extract`); required keys are plain, `.get`-accessed keys
are `Option`, and `tags` defaults to `[]`. -/
structure PainPointFields where
  problem_statement : String
  category : String
  severity : String
  context : Option String
  suggested_solution : Option String
  tags : List String
  target_audience : Option String
  related_industry : Option String
  deriving Repr, DecidableEq

/-- An element of the `items_dict` list built in `extract_pain_points`
(`main.py` lines 477–484): id, content, and the row's social metadata
(`item.source_metadata or {}`). -/
structure ItemDict where
  id : Nat
  content : String
  metadata : Option SourceMetadata
  deriving Repr, DecidableEq

/-- A `pp_data` dict appended by `batch_extract`: originating raw item id,
parsed fields, and the computed opportunity score. -/
structure PPData where
  raw_data_id : Option Nat
  fields : PainPointFields
  opportunity_score : Int
  deriving Repr, DecidableEq

/-- Embeds `PainPointExtractor.extract` (lines 11–84): call the adapter,
and on success attach `opportunity_score`; any per-item failure (API error,
unparseable JSON, missing required key) yields `None`. -/
def extract (adapter : String → Option PainPointFields) (text : String)
    (source_metadata : Option SourceMetadata) : Option (PainPointFields × Int) :=
  (adapter text).map fun f => (f, calculate_opportunity f.severity source_metadata)

/-- Embeds `PainPointExtractor.batch_extract` (lines 101–119): one adapter
call per item, skipping failures, tagging each result with the item's id. -/
def batch_extract (adapter : String → Option PainPointFields)
    (items : List ItemDict) : List PPData :=
  items.filterMap fun item =>
    (extract adapter item.content item.metadata).map fun e => ⟨some item.id, e.1, e.2⟩

/-- Pipeline persistent state: the three stores related by foreign keys. -/
structure ExtractState where
  raw_data : List RawData
  pain_points : List PainPoint
  sessions : List ExtractionSession
  deriving Repr, DecidableEq

/-- Raw item ids that already have a PainPoint (`main.py` lines 443–450:
`PainPoint.raw_data_id` values that are not null). -/
def processed_ids (pps : List PainPoint) : List Nat :=
  pps.filterMap PainPoint.raw_data_id

/-- Candidate selection of the extraction session (`main.py` lines 452–456):
rows with non-null content (vacuously all rows, `content` being
`nullable=False`) whose id has no existing pain point, up to `limit`. -/
def select_extraction_items (st : ExtractState) (limit : Nat) : List RawData :=
  (st.raw_data.filter fun r => decide (r.id ∉ processed_ids st.pain_points)).take limit

/-- Fresh `ExtractionSession(...)` row with the column defaults of
`database/models.py`. -/
def new_session (session_id : Nat) : ExtractionSession :=
  { id := session_id, items_processed := 0, pain_points_extracted := 0,
    items_skipped := 0, avg_opportunity_score := none, high_severity_count := 0,
    critical_severity_count := 0, category_breakdown := none,
    severity_breakdown := none, completed_at := none, status := "in_progress",
    error_message := none }

/-- The `PainPoint(...)` row built from one `pp_data` (`main.py` 498–510). -/
def mk_pain_point (session_id : Nat) (pp : PPData) : PainPoint :=
  { raw_data_id := pp.raw_data_id, extraction_session_id := some session_id,
    problem_statement := pp.fields.problem_statement, category := pp.fields.category,
    severity := pp.fields.severity, context := pp.fields.context,
    suggested_solution := pp.fields.suggested_solution, tags := pp.fields.tags,
    target_audience := pp.fields.target_audience,
    related_industry := pp.fields.related_industry,
    opportunity_score := pp.opportunity_score }

/-- Python dict counter update `m[k] = m.get(k, 0) + 1` on an
insertion-ordered association list (a new key is appended). -/
def bump_count (m : List (String × Nat)) (k : String) : List (String × Nat) :=
  if m.any fun p => p.1 == k then
    m.map fun p => if p.1 == k then (p.1, p.2 + 1) else p
  else m ++ [(k, 1)]

/-- The guarded update `if severity in severity_counts:
severity_counts[severity] += 1` (`main.py` 518–520): an unknown key is
dropped, not added. -/
def bump_if_present (m : List (String × Nat)) (k : String) : List (String × Nat) :=
  if m.any fun p => p.1 == k then
    m.map fun p => if p.1 == k then (p.1, p.2 + 1) else p
  else m

/-- Dict read `m[k]` with default 0. -/
def lookup_count (m : List (String × Nat)) (k : String) : Nat :=
  ((m.find? fun p => p.1 == k).map Prod.snd).getD 0

/-- Initial `severity_counts` dict of `extract_pain_points` (line 493). -/
def severity_counts_init : List (String × Nat) :=
  [("critical", 0), ("high", 0), ("medium", 0), ("low", 0)]

/-- A severity string tracked by the initial `severity_counts` dict. -/
def known_severity (k : String) : Bool :=
  (severity_counts_init.map Prod.fst).any fun s => s == k

/-- Accumulator of the save loop of `extract_pain_points` (lines 491–526). -/
structure SaveAcc where
  pps : List PainPoint
  saved : Nat
  category_counts : List (String × Nat)
  severity_counts : List (String × Nat)
  total_score : Int
  deriving Repr, DecidableEq

/-- One iteration of the save loop (lines 496–526): persist the pain point
and update the tallies. -/
def save_step (session_id : Nat) (acc : SaveAcc) (pp : PPData) : SaveAcc :=
  { pps := acc.pps ++ [mk_pain_point session_id pp],
    saved := acc.saved + 1,
    category_counts := bump_count acc.category_counts pp.fields.category,
    severity_counts := bump_if_present acc.severity_counts pp.fields.severity,
    total_score := acc.total_score + pp.opportunity_score }

/-- JSON body of a successful `/extract/pain-points` response. -/
structure ExtractResponse where
  session_id : Nat
  pain_points_extracted : Nat
  items_processed : Nat
  items_skipped : Nat
  deriving Repr, DecidableEq

/-- Embeds the `/extract/pain-points` endpoint (`main.py` lines 423–568).
`mk_extractor` models `PainPointExtractor()` construction: `.error` is an
exception escaping the run after the session was opened (adapter
unconstructable / batch-level failure), handled by the `except` block at
lines 559–568, which finalizes the session as failed and re-raises. -/
def extract_pain_points
    (mk_extractor : Except String (String → Option PainPointFields))
    (limit : Nat) (st : ExtractState) : ExtractState × Except String ExtractResponse :=
  let session_id := st.sessions.length + 1
  let items := select_extraction_items st limit
  if items.isEmpty then
    let s := { new_session session_id with
      status := "completed", completed_at := some (),
      items_processed := 0, pain_points_extracted := 0 }
    ({ st with sessions := st.sessions ++ [s] }, .ok ⟨session_id, 0, 0, 0⟩)
  else
    match mk_extractor with
    | .error e =>
      let s := { new_session session_id with
        status := "failed", error_message := some e, completed_at := some () }
      ({ st with sessions := st.sessions ++ [s] }, .error e)
    | .ok adapter =>
      let items_dict := items.map fun r => ItemDict.mk r.id r.content r.source_metadata
      let drafts := batch_extract adapter items_dict
      let acc := drafts.foldl (save_step session_id) ⟨[], 0, [], severity_counts_init, 0⟩
      let avg : ℚ := if 0 < acc.saved then (acc.total_score : ℚ) / (acc.saved : ℚ) else 0
      let s := { new_session session_id with
        items_processed := items.length,
        pain_points_extracted := acc.saved,
        items_skipped := items.length - acc.saved,
        avg_opportunity_score := some avg,
        high_severity_count := lookup_count acc.severity_counts "high",
        critical_severity_count := lookup_count acc.severity_counts "critical",
        category_breakdown := some acc.category_counts,
        severity_breakdown := some acc.severity_counts,
        completed_at := some (),
        status := "completed" }
      ({ st with pain_points := st.pain_points ++ acc.pps,
                 sessions := st.sessions ++ [s] },
       .ok ⟨session_id, acc.saved, items.length, items.length - acc.saved⟩)

/-- A sequence of extraction runs, each with its own adapter outcome and
limit, folded over the state. -/
def run_sessions (runs : List (Except String (String → Option PainPointFields) × Nat))
    (st : ExtractState) : ExtractState :=
  runs.foldl (fun s r => (extract_pain_points r.1 r.2 s).1) st

/-- At most one PainPoint row references any given raw item id. -/
def at_most_one_pain_point (pps : List PainPoint) : Prop :=
  ∀ i : Nat, (pps.countP fun p => decide (p.raw_data_id = some i)) ≤ 1

/-- Sum of the counter values of a breakdown dict. -/
def breakdown_sum (m : List (String × Nat)) : Nat :=
  (m.map Prod.snd).sum

/-- Store used by the fail-open counterexample and witness: one fresh
unprocessed row. -/
def fail_open_db : List RawData :=
  [⟨1, "reddit", "t3_p1", "meh, this tool keeps crashing", none, none, none, none,
    none, none, false⟩]

end PainPointAnalyzer

namespace PainPointAnalyzer

/-! ## Claim theorems on scoring and classification -/

/-- C3. The claim asserts `1 ≤ opportunityScore ≤ 100` for every metadata
value including negative engagement counts.  The code only caps the score
above (`min(score, 100)`) and never clamps below: a heavily-downvoted post
(`score = -600` in the source metadata) drives the result to -5, below the
claimed lower bound 1 — contradicting the function's own docstring
"Calculate opportunity score 1-100". -/
theorem opportunity_score_no_lower_clamp :
    calculate_opportunity "low" (some ⟨some (-600), some 0⟩) = -5 ∧
    ¬ (1 ≤ calculate_opportunity "low" (some ⟨some (-600), some 0⟩)) := by
  constructor <;> decide

/-- C4. The opportunity score is exactly the spec's reference formula (a
deterministic function of severity and metadata), and the quoted instance —
severity critical, engagementScore 120, commentCount 30 — evaluates to 98. -/
theorem opportunity_score_formula :
    (∀ (severity : String) (metadata : Option SourceMetadata),
      calculate_opportunity severity metadata = spec_opportunity_score severity metadata) ∧
    calculate_opportunity "critical" (some ⟨some 120, some 30⟩) = 98 := by
  refine ⟨fun severity metadata => ?_, by decide⟩
  cases metadata <;>
    simp [calculate_opportunity, spec_opportunity_score, severity_bonus, Int.add_assoc]

/-- C9. Characterization of `filter_negative`: an output row exists for an
input item iff the classifier's (post-`analyze_sentiment`) result has label
NEGATIVE and confidence strictly greater than 0.70; every kept row stores the
negated confidence — a strictly negative value, hence distinguishable from a
positive-sentiment score of the same magnitude. -/
theorem filter_negative_characterization
    (classify : String → Except String SentimentResult) (items : List ContentItem)
    (x : ScoredItem) :
    (x ∈ filter_negative classify items ↔
      ∃ item ∈ items,
        (analyze_sentiment classify item.content).label = "NEGATIVE" ∧
        (7/10 : ℚ) < (analyze_sentiment classify item.content).score ∧
        x = ⟨item.id, item.content, -(analyze_sentiment classify item.content).score⟩) ∧
    (x ∈ filter_negative classify items → x.sentiment_score < 0) := by
  have hmem : x ∈ filter_negative classify items ↔
      ∃ item ∈ items,
        (analyze_sentiment classify item.content).label = "NEGATIVE" ∧
        (7/10 : ℚ) < (analyze_sentiment classify item.content).score ∧
        x = ⟨item.id, item.content, -(analyze_sentiment classify item.content).score⟩ := by
    simp only [filter_negative, List.mem_filterMap]
    constructor
    · rintro ⟨item, hitem, hx⟩
      by_cases h : (analyze_sentiment classify item.content).label = "NEGATIVE" ∧
          (7/10 : ℚ) < (analyze_sentiment classify item.content).score
      · refine ⟨item, hitem, h.1, h.2, ?_⟩
        simpa [h] using hx.symm
      · simp [if_neg h] at hx
    · rintro ⟨item, hitem, h1, h2, hx⟩
      exact ⟨item, hitem, by simp [if_pos (And.intro h1 h2), hx]⟩
  refine ⟨hmem, fun hx => ?_⟩
  obtain ⟨item, _, _, hscore, hxeq⟩ := hmem.mp hx
  have : (0 : ℚ) < (analyze_sentiment classify item.content).score :=
    lt_trans (by norm_num) hscore
  rw [hxeq]
  simpa using this

/-- Witness for C9: a concrete classifier answering NEGATIVE at confidence
0.9 yields membership of the negated-score row, via the characterization. -/
theorem filter_negative_characterization_witness :
    (⟨1, "bad product", -(9/10 : ℚ)⟩ : ScoredItem) ∈
      filter_negative (fun _ => .ok ⟨"NEGATIVE", 9/10⟩) [⟨1, "bad product"⟩] :=
  (filter_negative_characterization (fun _ => .ok ⟨"NEGATIVE", 9/10⟩)
    [⟨1, "bad product"⟩] ⟨1, "bad product", -(9/10 : ℚ)⟩).1.mpr
    ⟨⟨1, "bad product"⟩, by simp, by simp [analyze_sentiment], by norm_num [analyze_sentiment],
      by simp [analyze_sentiment]⟩

end PainPointAnalyzer

namespace PainPointAnalyzer

/-! ## Ingestion theorems -/

/-- Every batch item is decided (accepted or skipped) and the store only
grows: one duplicate never aborts the batch nor rolls back prior rows. -/
theorem ingest_batch_complete (batch : List Candidate) :
    ∀ (db : List RawData) (n : Nat),
      (ingest_batch db n batch).2.1 + (ingest_batch db n batch).2.2 = batch.length ∧
      ∃ rest, (ingest_batch db n batch).1 = db ++ rest := by
  induction batch with
  | nil => exact fun db n => ⟨rfl, [], by simp [ingest_batch]⟩
  | cons c rest ih =>
    intro db n
    by_cases hc : c.source_id ∈ db.map RawData.source_id
    · obtain ⟨hsum, r, hr⟩ := ih db n
      refine ⟨?_, r, ?_⟩ <;> simp [ingest_batch, hc]
      · omega
      · exact hr
    · obtain ⟨hsum, r, hr⟩ := ih (db ++ [candidate_row n c]) (n + 1)
      refine ⟨?_, [candidate_row n c] ++ r, ?_⟩ <;> simp [ingest_batch, hc]
      · omega
      · simpa using hr

/-- C2. Ingestion is idempotent and item-level transactional: every batch
item is either accepted or skipped (never aborting the batch), the store is
only ever extended (prior rows are neither rolled back nor overwritten); a
candidate whose `source_id` is new is inserted and counted accepted, and
re-ingesting the same `source_id` leaves the store unchanged with a skip
count of 1, so exactly one row with that `source_id` is stored. -/
theorem ingestion_idempotent (db : List RawData) (next_id next_id2 : Nat) (c : Candidate)
    (h : c.source_id ∉ db.map RawData.source_id) :
    (∀ (n : Nat) (batch : List Candidate),
        (ingest_batch db n batch).2.1 + (ingest_batch db n batch).2.2 = batch.length ∧
        ∃ rest, (ingest_batch db n batch).1 = db ++ rest) ∧
    ingest_batch db next_id [c] = (db ++ [candidate_row next_id c], 1, 0) ∧
    ingest_batch (db ++ [candidate_row next_id c]) next_id2 [c]
      = (db ++ [candidate_row next_id c], 0, 1) ∧
    ((db ++ [candidate_row next_id c]).countP fun r => decide (r.source_id = c.source_id)) = 1 := by
  refine ⟨fun n batch => ingest_batch_complete batch db n, ?_, ?_, ?_⟩
  · simp [ingest_batch, h]
  · have hmem : c.source_id ∈ (db ++ [candidate_row next_id c]).map RawData.source_id := by
      simp [candidate_row]
    simp [ingest_batch, hmem]
    exact fun _ => rfl
  · have hzero : (db.countP fun r => decide (r.source_id = c.source_id)) = 0 := by
      rw [List.countP_eq_zero]
      intro a ha
      simp only [decide_eq_true_eq]
      intro hEq
      exact h (hEq ▸ List.mem_map_of_mem RawData.source_id ha)
    rw [List.countP_append, hzero]
    simp [List.countP_cons, candidate_row]

/-- Witness for C2: in an initially empty store, the second ingestion of the
same candidate is a pure skip that leaves the single stored row unchanged. -/
theorem ingestion_idempotent_witness :
    ingest_batch ([] ++ [candidate_row 1 ⟨"reddit", "t3_abc", "ouch", none, none, none, none⟩]) 2
        [⟨"reddit", "t3_abc", "ouch", none, none, none, none⟩]
      = ([] ++ [candidate_row 1 ⟨"reddit", "t3_abc", "ouch", none, none, none, none⟩], 0, 1) :=
  (ingestion_idempotent [] 1 2 ⟨"reddit", "t3_abc", "ouch", none, none, none, none⟩
    (by simp)).2.2.1

end PainPointAnalyzer

namespace PainPointAnalyzer

/-! ## Sentiment pass theorems -/

/-- When the classifier adapter always errors, `analyze_sentiment` swallows
the error into the neutral default. -/
theorem analyze_sentiment_of_fail (classify : String → Except String SentimentResult)
    (hfail : ∀ t, ∃ e, classify t = .error e) (text : String) :
    analyze_sentiment classify text = ⟨"NEUTRAL", 1/2⟩ := by
  obtain ⟨e, he⟩ := hfail (text.take 1000)
  simp [analyze_sentiment, he]

/-- When the classifier adapter always errors, no item passes the negative
filter. -/
theorem filter_negative_of_fail (classify : String → Except String SentimentResult)
    (hfail : ∀ t, ∃ e, classify t = .error e) (items : List ContentItem) :
    filter_negative classify items = [] := by
  simp only [filter_negative, List.filterMap_eq_nil_iff]
  intro item _
  rw [analyze_sentiment_of_fail classify hfail]
  simp

/-- C6 (amended). If the classifier adapter errors on every call, the
sentiment pass does not raise, returns a negative count of 0, and marks every
selected item `processed = true` while leaving every other field — in
particular `is_negative`, which stays null rather than being set to false —
and every unselected row untouched. -/
theorem sentiment_fail_open (classify : String → Except String SentimentResult)
    (limit : Nat) (db : List RawData)
    (hfail : ∀ t, ∃ e, classify t = .error e) :
    process_sentiment classify limit db =
      ⟨db.map fun r =>
          if r.id ∈ (select_sentiment_items db limit).map RawData.id then
            { r with processed := true }
          else r,
        (select_sentiment_items db limit).length, 0⟩ := by
  simp only [process_sentiment]
  split
  · next h =>
    have hsel : select_sentiment_items db limit = [] := by
      simpa using h
    rw [hsel]
    simp
  · next h =>
    rw [filter_negative_of_fail classify hfail]
    simp

/-- Witness for C6 (amended): a concrete always-erroring classifier over the
one-row store. -/
theorem sentiment_fail_open_witness :
    process_sentiment (fun _ => .error "api down") 100 fail_open_db =
      ⟨fail_open_db.map fun r =>
          if r.id ∈ (select_sentiment_items fail_open_db 100).map RawData.id then
            { r with processed := true }
          else r,
        (select_sentiment_items fail_open_db 100).length, 0⟩ :=
  sentiment_fail_open _ 100 fail_open_db fun _ => ⟨"api down", rfl⟩

/-- C6 (counterexample to the claim as stated). With an always-erroring
classifier, the selected item ends the run with `processed = true` and a
negative count of 0 as claimed, but its `is_negative` flag is left null
(`None`), not set to `false` as the claim asserts. -/
theorem sentiment_fail_open_cex :
    (process_sentiment (fun _ => .error "api down") 100 fail_open_db).items_negative = 0 ∧
    (process_sentiment (fun _ => .error "api down") 100 fail_open_db).db.map
        RawData.processed = [true] ∧
    (process_sentiment (fun _ => .error "api down") 100 fail_open_db).db.map
        RawData.is_negative = [none] ∧
    ¬ ((process_sentiment (fun _ => .error "api down") 100 fail_open_db).db.map
        RawData.is_negative = [some false]) := by
  decide

/-- C10. The sentiment pass selects only rows with `processed = false` and a
null `sentiment_score`; a row with a non-null `sentiment_score` is never
selected and is returned (at its position) completely unchanged by
`process_sentiment`. -/
theorem sentiment_selection_guard (classify : String → Except String SentimentResult)
    (limit : Nat) (db : List RawData)
    (hids : (db.map RawData.id).Nodup) :
    (∀ r ∈ select_sentiment_items db limit,
        r.processed = false ∧ r.sentiment_score = none) ∧
    (∀ r : RawData, r.sentiment_score ≠ none → r ∉ select_sentiment_items db limit) ∧
    ∀ (i : Nat) (r : RawData), db[i]? = some r → r.sentiment_score ≠ none →
      (process_sentiment classify limit db).db[i]? = some r := by
  have hsel : ∀ r ∈ select_sentiment_items db limit,
      r.processed = false ∧ r.sentiment_score = none := by
    intro r hr
    have hr' := List.mem_filter.mp (List.mem_of_mem_take hr)
    have := hr'.2
    simp only [Bool.and_eq_true, Bool.not_eq_true', Option.isNone_iff_eq_none] at this
    exact this
  refine ⟨hsel, fun r hscore hmem => hscore (hsel r hmem).2, ?_⟩
  intro i r hget hscore
  simp only [process_sentiment]
  split
  · exact hget
  · have hcond : r.id ∉ (select_sentiment_items db limit).map RawData.id := by
      intro hid
      obtain ⟨r', hr', hid'⟩ := List.mem_map.mp hid
      have hr'db : r' ∈ db :=
        (List.mem_filter.mp (List.mem_of_mem_take hr')).1
      have hrdb : r ∈ db := List.getElem?_mem hget
      have heq : r' = r := List.inj_on_of_nodup_map hids hr'db hrdb hid'
      exact hscore (heq ▸ (hsel r' hr').2)
    rw [List.getElem?_map, hget]
    simp only [Option.map_some']
    exact congrArg some (if_neg hcond)

end PainPointAnalyzer

namespace PainPointAnalyzer

/-- Witness for C10: a half-processed row (non-null sentiment score) survives
a concrete sentiment pass untouched at its position. -/
theorem sentiment_selection_guard_witness :
    (process_sentiment (fun _ => .ok ⟨"NEGATIVE", 9/10⟩) 10
        [⟨1, "reddit", "t3_a", "slow", none, none, none, none, some (-(4/5 : ℚ)), some true, false⟩,
         ⟨2, "reddit", "t3_b", "fine", none, none, none, none, none, none, false⟩]).db[0]?
      = some ⟨1, "reddit", "t3_a", "slow", none, none, none, none, some (-(4/5 : ℚ)), some true, false⟩ :=
  (sentiment_selection_guard (fun _ => .ok ⟨"NEGATIVE", 9/10⟩) 10
    [⟨1, "reddit", "t3_a", "slow", none, none, none, none, some (-(4/5 : ℚ)), some true, false⟩,
     ⟨2, "reddit", "t3_b", "fine", none, none, none, none, none, none, false⟩]
    (by decide)).2.2 0 _ rfl (by decide)

/-! ## Extraction session theorems -/

/-- C8. An extraction run over an empty candidate set is a non-error outcome:
the new session is completed with all counters at zero and a recorded
completion time, no pain points are added, and the endpoint returns a
success response with all counts zero. -/
theorem empty_batch_completion
    (mk_extractor : Except String (String → Option PainPointFields))
    (limit : Nat) (st : ExtractState)
    (h : select_extraction_items st limit = []) :
    (extract_pain_points mk_extractor limit st).2 =
      .ok ⟨st.sessions.length + 1, 0, 0, 0⟩ ∧
    (extract_pain_points mk_extractor limit st).1.pain_points = st.pain_points ∧
    ∃ s : ExtractionSession,
      (extract_pain_points mk_extractor limit st).1.sessions = st.sessions ++ [s] ∧
      s.status = "completed" ∧ s.items_processed = 0 ∧ s.pain_points_extracted = 0 ∧
      s.items_skipped = 0 ∧ s.completed_at = some () := by
  refine ⟨?_, ?_,
    { new_session (st.sessions.length + 1) with
        status := "completed", completed_at := some (),
        items_processed := 0, pain_points_extracted := 0 },
    ?_, rfl, rfl, rfl, rfl, rfl⟩ <;>
  simp [extract_pain_points, h]

/-- Witness for C8: a run over the empty store returns the all-zero success
response. -/
theorem empty_batch_completion_witness :
    (extract_pain_points (.ok fun _ => none) 50 ⟨[], [], []⟩).2 = .ok ⟨1, 0, 0, 0⟩ :=
  (empty_batch_completion (.ok fun _ => none) 50 ⟨[], [], []⟩ rfl).1

/-- C5. If an exception escapes the extraction run after the session is
opened and a non-empty candidate set was selected (modelled at the
adapter-construction / batch boundary, e.g. `PainPointExtractor()` raising),
the exception is re-raised to the caller, the session is persisted in the
terminal failed state carrying the (non-empty) error message and a recorded
`completed_at`, and no pain points are persisted for that run. -/
theorem session_failure_path (st : ExtractState) (limit : Nat) (msg : String)
    (hne : select_extraction_items st limit ≠ [])
    (hmsg : msg ≠ "") :
    (extract_pain_points (.error msg) limit st).2 = .error msg ∧
    (extract_pain_points (.error msg) limit st).1.pain_points = st.pain_points ∧
    ∃ s : ExtractionSession,
      (extract_pain_points (.error msg) limit st).1.sessions = st.sessions ++ [s] ∧
      s.status = "failed" ∧ s.error_message = some msg ∧ s.error_message ≠ some "" ∧
      s.completed_at = some () := by
  have hempty : (select_extraction_items st limit).isEmpty = false := by
    simpa using hne
  refine ⟨?_, ?_,
    { new_session (st.sessions.length + 1) with
        status := "failed", error_message := some msg, completed_at := some () },
    ?_, rfl, rfl, ?_, rfl⟩
  · simp [extract_pain_points, hempty]
  · simp [extract_pain_points, hempty]
  · simp [extract_pain_points, hempty]
  · simp [hmsg]

/-- Witness for C5: a failed adapter construction over a one-row store
re-raises the error. -/
theorem session_failure_path_witness :
    (extract_pain_points (.error "missing ANTHROPIC_API_KEY") 50
        ⟨[⟨1, "reddit", "t3_a", "ugh", none, none, none, none, none, none, false⟩], [], []⟩).2
      = .error "missing ANTHROPIC_API_KEY" :=
  (session_failure_path
    ⟨[⟨1, "reddit", "t3_a", "ugh", none, none, none, none, none, none, false⟩], [], []⟩
    50 "missing ANTHROPIC_API_KEY" (by decide) (by decide)).1

end PainPointAnalyzer

namespace PainPointAnalyzer

/-! ## No-double-extraction development -/

/-- The save loop appends exactly the drafts, mapped to pain point rows. -/
theorem save_loop_pps (sid : Nat) (drafts : List PPData) :
    ∀ acc : SaveAcc,
      (drafts.foldl (save_step sid) acc).pps = acc.pps ++ drafts.map (mk_pain_point sid) := by
  induction drafts with
  | nil => intro acc; simp
  | cons d t ih =>
    intro acc
    simp [List.foldl_cons, ih, save_step, List.append_assoc]

/-- Each draft carries the id of some input item. -/
theorem batch_extract_raw_ids (adapter : String → Option PainPointFields)
    (l : List ItemDict) :
    ∀ d ∈ batch_extract adapter l, ∃ it ∈ l, d.raw_data_id = some it.id := by
  intro d hd
  obtain ⟨it, hit, he⟩ := List.mem_filterMap.mp hd
  refine ⟨it, hit, ?_⟩
  cases hx : extract adapter it.content it.metadata with
  | none => rw [hx] at he; simp at he
  | some e =>
    rw [hx] at he
    simp only [Option.map_some', Option.some.injEq] at he
    rw [← he]

/-- The number of drafts referencing a fixed raw id is bounded by the number
of input items with that id. -/
theorem batch_extract_countP (adapter : String → Option PainPointFields)
    (i : Nat) (l : List ItemDict) :
    ((batch_extract adapter l).countP fun d => decide (d.raw_data_id = some i)) ≤
      l.countP fun it => decide (it.id = i) := by
  induction l with
  | nil => simp [batch_extract]
  | cons it t ih =>
    simp only [batch_extract, List.filterMap_cons] at ih ⊢
    cases hx : extract adapter it.content it.metadata with
    | none =>
      simp only [Option.map_none']
      refine le_trans ih ?_
      rw [List.countP_cons]
      omega
    | some e =>
      simp only [Option.map_some']
      rw [List.countP_cons, List.countP_cons]
      by_cases hc : it.id = i <;> simp [hc] <;> omega

/-- In a list of distinct naturals, at most one element equals `i`. -/
theorem nodup_countP_le_one {l : List Nat} (h : l.Nodup) (i : Nat) :
    (l.countP fun x => decide (x = i)) ≤ 1 := by
  induction l with
  | nil => simp
  | cons a t ih =>
    rcases List.nodup_cons.mp h with ⟨ha, ht⟩
    rw [List.countP_cons]
    by_cases hc : a = i
    · subst hc
      have hzero : (t.countP fun x => decide (x = a)) = 0 := by
        rw [List.countP_eq_zero]
        intro b hb
        simp only [decide_eq_true_eq]
        intro hba
        exact ha (hba ▸ hb)
      rw [hzero]
      simp
    · simpa [hc] using ih ht

/-- Selected candidates are a sublist of the store, so their ids stay
distinct. -/
theorem select_extraction_ids_nodup (st : ExtractState) (limit : Nat)
    (hids : (st.raw_data.map RawData.id).Nodup) :
    ((select_extraction_items st limit).map RawData.id).Nodup := by
  have hsub : List.Sublist (select_extraction_items st limit) st.raw_data :=
    (List.take_sublist _ _).trans (List.filter_sublist _)
  exact List.Nodup.sublist (hsub.map RawData.id) hids

/-- Selected candidates have no existing pain point (the anti-join of
`main.py` lines 443–456). -/
theorem select_extraction_not_processed (st : ExtractState) (limit : Nat) :
    ∀ r ∈ select_extraction_items st limit, r.id ∉ processed_ids st.pain_points := by
  intro r hr
  have h := (List.mem_filter.mp (List.mem_of_mem_take hr)).2
  simpa using h

/-- One extraction run leaves the raw item store untouched and preserves the
at-most-one-pain-point-per-raw-item invariant. -/
theorem extract_pain_points_preserves
    (mk_extractor : Except String (String → Option PainPointFields))
    (limit : Nat) (st : ExtractState)
    (hids : (st.raw_data.map RawData.id).Nodup)
    (hinv : at_most_one_pain_point st.pain_points) :
    (extract_pain_points mk_extractor limit st).1.raw_data = st.raw_data ∧
    at_most_one_pain_point (extract_pain_points mk_extractor limit st).1.pain_points := by
  cases mk_extractor with
  | error e =>
    simp only [extract_pain_points]
    split
    · exact ⟨rfl, hinv⟩
    · exact ⟨rfl, hinv⟩
  | ok adapter =>
    simp only [extract_pain_points]
    split
    · exact ⟨rfl, hinv⟩
    · refine ⟨rfl, ?_⟩
      intro i
      rw [save_loop_pps]
      simp only [List.nil_append, List.countP_append]
      have hnew :
          (((batch_extract adapter ((select_extraction_items st limit).map fun r =>
              ItemDict.mk r.id r.content r.source_metadata)).map
                (mk_pain_point (st.sessions.length + 1))).countP
            fun p => decide (p.raw_data_id = some i)) ≤ 1 := by
        rw [List.countP_map]
        have h1 : (List.countP
              ((fun p => decide (p.raw_data_id = some i)) ∘
                mk_pain_point (st.sessions.length + 1))
              (batch_extract adapter ((select_extraction_items st limit).map fun r =>
                ItemDict.mk r.id r.content r.source_metadata))) =
            (List.countP (fun d => decide (d.raw_data_id = some i))
              (batch_extract adapter ((select_extraction_items st limit).map fun r =>
                ItemDict.mk r.id r.content r.source_metadata))) := by
          apply List.countP_congr
          intro d _
          simp [Function.comp, mk_pain_point]
        rw [h1]
        refine le_trans (batch_extract_countP adapter i _) ?_
        have h2 : (List.countP (fun it => decide (it.id = i))
              ((select_extraction_items st limit).map fun r =>
                ItemDict.mk r.id r.content r.source_metadata)) =
            (((select_extraction_items st limit).map RawData.id).countP
              fun x => decide (x = i)) := by
          rw [List.countP_map, List.countP_map]
          rfl
        rw [h2]
        exact nodup_countP_le_one (select_extraction_ids_nodup st limit hids) i
      by_cases hpos :
          0 < (((batch_extract adapter ((select_extraction_items st limit).map fun r =>
              ItemDict.mk r.id r.content r.source_metadata)).map
                (mk_pain_point (st.sessions.length + 1))).countP
            fun p => decide (p.raw_data_id = some i))
      · obtain ⟨p, hp, hpi⟩ := List.countP_pos_iff.mp hpos
        obtain ⟨d, hd, hmk⟩ := List.mem_map.mp hp
        have hdi : d.raw_data_id = some i := by
          have : (mk_pain_point (st.sessions.length + 1) d).raw_data_id = some i := by
            rw [hmk]
            simpa using hpi
          simpa [mk_pain_point] using this
        obtain ⟨it, hit, hitid⟩ := batch_extract_raw_ids adapter _ d hd
        obtain ⟨r, hrmem, hrit⟩ := List.mem_map.mp hit
        have hrid : r.id = i := by
          have : (some it.id : Option Nat) = some i := hitid ▸ hdi
          have hiti : it.id = i := Option.some_injective _ this
          rw [← hiti, ← hrit]
        have hnot : i ∉ processed_ids st.pain_points :=
          hrid ▸ select_extraction_not_processed st limit r hrmem
        have hold : (st.pain_points.countP fun p => decide (p.raw_data_id = some i)) = 0 := by
          rw [List.countP_eq_zero]
          intro q hq
          simp only [decide_eq_true_eq]
          intro hqi
          exact hnot (List.mem_filterMap.mpr ⟨q, hq, hqi⟩)
        omega
      · have hz := Nat.eq_zero_of_not_pos hpos
        have hold := hinv i
        omega

/-- Any sequence of extraction runs preserves the invariant. -/
theorem run_sessions_preserves
    (runs : List (Except String (String → Option PainPointFields) × Nat)) :
    ∀ st : ExtractState, (st.raw_data.map RawData.id).Nodup →
      at_most_one_pain_point st.pain_points →
      at_most_one_pain_point (run_sessions runs st).pain_points := by
  induction runs with
  | nil => exact fun st _ hinv => hinv
  | cons run rest ih =>
    intro st hids hinv
    obtain ⟨hraw, hinv'⟩ := extract_pain_points_preserves run.1 run.2 st hids hinv
    exact ih _ (by rw [hraw]; exact hids) hinv'

/-- C1. The extraction-session operation never re-extracts an item: its
candidate selection excludes every raw item that already has a pain point
(the anti-join on `raw_data_id`), and — starting from a store with distinct
primary keys in which each raw item has at most one pain point — any
sequence of extraction runs preserves that at most one PainPoint exists per
`raw_data_id`. -/
theorem no_double_extraction (st : ExtractState)
    (hids : (st.raw_data.map RawData.id).Nodup)
    (hinv : at_most_one_pain_point st.pain_points) :
    (∀ (limit : Nat) (r : RawData),
        r ∈ select_extraction_items st limit → r.id ∉ processed_ids st.pain_points) ∧
    ∀ runs, at_most_one_pain_point (run_sessions runs st).pain_points :=
  ⟨fun limit r hr => select_extraction_not_processed st limit r hr,
   fun runs => run_sessions_preserves runs st hids hinv⟩

/-- Witness for C1: a concrete single-run sequence over a one-row store with
no prior pain points keeps the invariant. -/
theorem no_double_extraction_witness :
    at_most_one_pain_point (run_sessions [(.ok fun _ => none, 50)]
      ⟨[⟨1, "reddit", "t3_a", "ugh", none, none, none, none, none, none, false⟩],
        [], []⟩).pain_points :=
  (no_double_extraction
    ⟨[⟨1, "reddit", "t3_a", "ugh", none, none, none, none, none, none, false⟩], [], []⟩
    (by decide) (fun i => by simp)).2 [(.ok fun _ => none, 50)]

end PainPointAnalyzer

namespace PainPointAnalyzer

/-! ## Aggregate consistency development -/

/-- The in-place counter bump keeps the key list. -/
theorem bump_map_keys (m : List (String × Nat)) (k : String) :
    ((m.map fun p => if p.1 == k then (p.1, p.2 + 1) else p).map Prod.fst) =
      m.map Prod.fst := by
  induction m with
  | nil => rfl
  | cons a t ih =>
    simp only [List.map_cons, ih]
    congr 1
    cases hc : (a.1 == k) <;> simp [hc]

/-- The in-place counter bump raises the sum by the number of matching
keys. -/
theorem bump_map_sum (m : List (String × Nat)) (k : String) :
    breakdown_sum (m.map fun p => if p.1 == k then (p.1, p.2 + 1) else p) =
      breakdown_sum m + (m.countP fun p => p.1 == k) := by
  induction m with
  | nil => rfl
  | cons a t ih =>
    simp only [breakdown_sum, List.map_cons, List.sum_cons, List.countP_cons] at ih ⊢
    rw [ih]
    cases hc : (a.1 == k) <;> simp <;> omega

/-- With distinct keys, a present key matches exactly one entry. -/
theorem countP_key_eq_one {m : List (String × Nat)} {k : String}
    (hnd : (m.map Prod.fst).Nodup) (h : (m.any fun p => p.1 == k) = true) :
    (m.countP fun p => p.1 == k) = 1 := by
  induction m with
  | nil => simp at h
  | cons a t ih =>
    simp only [List.map_cons, List.nodup_cons] at hnd
    rw [List.countP_cons]
    cases hc : (a.1 == k) with
    | true =>
      have hak : a.1 = k := by simpa using hc
      have hzero : (t.countP fun p => p.1 == k) = 0 := by
        rw [List.countP_eq_zero]
        intro b hb hbk
        have hbk' : b.1 = k := by simpa using hbk
        apply hnd.1
        rw [hak, ← hbk']
        exact List.mem_map_of_mem Prod.fst hb
      rw [hzero]
      simp [hc]
    | false =>
      have h' : (t.any fun p => p.1 == k) = true := by
        simp only [List.any_cons, hc, Bool.false_or] at h
        exact h
      rw [ih hnd.2 h']
      simp [hc]

/-- `bump_count` (the unguarded Python dict bump) raises the sum by exactly
one when keys are distinct. -/
theorem bump_count_sum {m : List (String × Nat)} (hnd : (m.map Prod.fst).Nodup)
    (k : String) :
    breakdown_sum (bump_count m k) = breakdown_sum m + 1 := by
  by_cases h : (m.any fun p => p.1 == k) = true
  · unfold bump_count
    rw [if_pos h, bump_map_sum, countP_key_eq_one hnd h]
  · unfold bump_count
    rw [if_neg h]
    simp [breakdown_sum]

/-- `bump_count` preserves distinctness of keys. -/
theorem bump_count_keys_nodup {m : List (String × Nat)}
    (hnd : (m.map Prod.fst).Nodup) (k : String) :
    ((bump_count m k).map Prod.fst).Nodup := by
  by_cases h : (m.any fun p => p.1 == k) = true
  · unfold bump_count
    rw [if_pos h, bump_map_keys]
    exact hnd
  · unfold bump_count
    rw [if_neg h, List.map_append]
    simp only [List.map_cons, List.map_nil]
    have hk : k ∉ m.map Prod.fst := by
      intro hkm
      obtain ⟨p, hp, hpk⟩ := List.mem_map.mp hkm
      exact h (List.any_eq_true.mpr ⟨p, hp, by simp [hpk]⟩)
    refine List.Nodup.append hnd (List.nodup_singleton k) ?_
    intro a ha hak
    rw [List.mem_singleton] at hak
    exact hk (hak ▸ ha)

/-- `bump_if_present` (the guarded severity bump) keeps the key list. -/
theorem bump_if_present_keys (m : List (String × Nat)) (k : String) :
    (bump_if_present m k).map Prod.fst = m.map Prod.fst := by
  by_cases h : (m.any fun p => p.1 == k) = true
  · unfold bump_if_present
    rw [if_pos h]
    exact bump_map_keys m k
  · unfold bump_if_present
    rw [if_neg h]

/-- `bump_if_present` raises the sum by one exactly on present keys. -/
theorem bump_if_present_sum {m : List (String × Nat)}
    (hnd : (m.map Prod.fst).Nodup) (k : String) :
    breakdown_sum (bump_if_present m k) =
      breakdown_sum m + (if (m.any fun p => p.1 == k) then 1 else 0) := by
  by_cases h : (m.any fun p => p.1 == k) = true
  · unfold bump_if_present
    rw [if_pos h, bump_map_sum, countP_key_eq_one hnd h, if_pos h]
  · unfold bump_if_present
    rw [if_neg h, if_neg h]
    omega

/-- Presence of a key in a dict depends only on the key list. -/
theorem any_key_eq (m : List (String × Nat)) (k : String) :
    (m.any fun p => p.1 == k) = ((m.map Prod.fst).any fun s => s == k) := by
  induction m with
  | nil => rfl
  | cons a t ih => simp [List.any_cons, ih]

/-- Invariants of the save loop of `extract_pain_points`: one pain point per
draft; the category dict sums to the number of saved drafts; the severity
dict keeps the four fixed keys and sums to the number of drafts whose
severity string is known. -/
theorem save_loop_sums (sid : Nat) (drafts : List PPData) :
    ∀ acc : SaveAcc,
      (acc.category_counts.map Prod.fst).Nodup →
      acc.severity_counts.map Prod.fst = severity_counts_init.map Prod.fst →
      (drafts.foldl (save_step sid) acc).saved = acc.saved + drafts.length ∧
      ((drafts.foldl (save_step sid) acc).category_counts.map Prod.fst).Nodup ∧
      (drafts.foldl (save_step sid) acc).severity_counts.map Prod.fst =
        severity_counts_init.map Prod.fst ∧
      breakdown_sum (drafts.foldl (save_step sid) acc).category_counts =
        breakdown_sum acc.category_counts + drafts.length ∧
      breakdown_sum (drafts.foldl (save_step sid) acc).severity_counts =
        breakdown_sum acc.severity_counts +
          (drafts.countP fun d => known_severity d.fields.severity) := by
  induction drafts with
  | nil => exact fun acc h1 h2 => ⟨rfl, h1, h2, by simp, by simp⟩
  | cons d t ih =>
    intro acc h1 h2
    have hstep1 : ((save_step sid acc d).category_counts.map Prod.fst).Nodup :=
      bump_count_keys_nodup h1 _
    have hstep2 : (save_step sid acc d).severity_counts.map Prod.fst =
        severity_counts_init.map Prod.fst := by
      simp only [save_step]
      rw [bump_if_present_keys, h2]
    obtain ⟨ha, hb, hc, hd, he⟩ := ih (save_step sid acc d) hstep1 hstep2
    have hsevnd : (acc.severity_counts.map Prod.fst).Nodup := by
      rw [h2]; decide
    refine ⟨?_, hb, hc, ?_, ?_⟩
    · rw [List.foldl_cons, ha]
      simp only [save_step, List.length_cons]
      omega
    · rw [List.foldl_cons, hd]
      simp only [save_step, List.length_cons]
      rw [bump_count_sum h1]
      omega
    · rw [List.foldl_cons, he]
      simp only [save_step]
      rw [bump_if_present_sum hsevnd, List.countP_cons]
      have hknown : (acc.severity_counts.any fun p => p.1 == d.fields.severity) =
          known_severity d.fields.severity := by
        rw [any_key_eq, h2]; rfl
      rw [hknown]
      by_cases hk : known_severity d.fields.severity = true <;> simp [hk] <;> omega

/-- Summary of the save loop started from the initial accumulator of
`extract_pain_points`. -/
theorem save_loop_final (sid : Nat) (drafts : List PPData) :
    breakdown_sum
        (drafts.foldl (save_step sid) ⟨[], 0, [], severity_counts_init, 0⟩).category_counts =
      (drafts.foldl (save_step sid) ⟨[], 0, [], severity_counts_init, 0⟩).saved ∧
    breakdown_sum
        (drafts.foldl (save_step sid) ⟨[], 0, [], severity_counts_init, 0⟩).severity_counts =
      ((drafts.map (mk_pain_point sid)).countP fun p => known_severity p.severity) ∧
    breakdown_sum
        (drafts.foldl (save_step sid) ⟨[], 0, [], severity_counts_init, 0⟩).severity_counts ≤
      (drafts.foldl (save_step sid) ⟨[], 0, [], severity_counts_init, 0⟩).saved := by
  obtain ⟨ha, -, -, hd, he⟩ :=
    save_loop_sums sid drafts ⟨[], 0, [], severity_counts_init, 0⟩ (by simp) rfl
  have h0cat : breakdown_sum
      (⟨[], 0, [], severity_counts_init, 0⟩ : SaveAcc).category_counts = 0 := rfl
  have h0sev : breakdown_sum
      (⟨[], 0, [], severity_counts_init, 0⟩ : SaveAcc).severity_counts = 0 := rfl
  have h0saved : (⟨[], 0, [], severity_counts_init, 0⟩ : SaveAcc).saved = 0 := rfl
  have hcount : (drafts.countP fun d => known_severity d.fields.severity) =
      ((drafts.map (mk_pain_point sid)).countP fun p => known_severity p.severity) := by
    rw [List.countP_map]
    apply List.countP_congr
    intro d _
    simp [Function.comp, mk_pain_point]
  refine ⟨?_, ?_, ?_⟩
  · rw [hd, ha, h0cat, h0saved]
  · rw [he, h0sev, Nat.zero_add, hcount]
  · rw [he, ha, h0sev, h0saved, Nat.zero_add, Nat.zero_add]
    exact List.countP_le_length _

/-- C7 (amended). Every extraction run appends exactly one session record;
whenever that session is completed, its category breakdown sums to
`pain_points_extracted`, while its severity breakdown sums to the number of
pain points persisted in that run whose severity string is one of
critical/high/medium/low.  Unknown severities are dropped from the severity
map entirely (not counted in it), so the severity sum is only bounded by
`pain_points_extracted`, with equality exactly when every severity is
known. -/
theorem aggregate_consistency
    (mk_extractor : Except String (String → Option PainPointFields))
    (limit : Nat) (st : ExtractState) :
    ∃ s : ExtractionSession,
      (extract_pain_points mk_extractor limit st).1.sessions = st.sessions ++ [s] ∧
      (s.status = "completed" →
        breakdown_sum (s.category_breakdown.getD []) = s.pain_points_extracted ∧
        breakdown_sum (s.severity_breakdown.getD []) =
          (((extract_pain_points mk_extractor limit st).1.pain_points.drop
              st.pain_points.length).countP fun p => known_severity p.severity) ∧
        breakdown_sum (s.severity_breakdown.getD []) ≤ s.pain_points_extracted) := by
  cases mk_extractor with
  | error e =>
    simp only [extract_pain_points]
    split
    · refine ⟨_, rfl, fun _ => ⟨rfl, ?_, Nat.le_refl 0⟩⟩
      simp [List.drop_length, breakdown_sum, new_session]
    · refine ⟨_, rfl, fun hstat => ?_⟩
      simp at hstat
  | ok adapter =>
    simp only [extract_pain_points]
    split
    · refine ⟨_, rfl, fun _ => ⟨rfl, ?_, Nat.le_refl 0⟩⟩
      simp [List.drop_length, breakdown_sum, new_session]
    · refine ⟨_, rfl, fun _ => ?_⟩
      obtain ⟨h1, h2, h3⟩ := save_loop_final (st.sessions.length + 1)
        (batch_extract adapter ((select_extraction_items st limit).map fun r =>
          ItemDict.mk r.id r.content r.source_metadata))
      dsimp only
      simp only [Option.getD_some]
      refine ⟨h1, ?_, h3⟩
      rw [List.drop_left, save_loop_pps]
      dsimp only
      exact h2

end PainPointAnalyzer

namespace PainPointAnalyzer

/-- C7 (counterexample to the claim as stated). A run over one fresh item
whose extraction yields severity "severe" (an unknown severity string)
completes with `pain_points_extracted = 1`, yet the severity breakdown sums
to 0: the unknown severity was dropped from the severity map entirely, so
`sum(severityBreakdown.values()) ≠ painPointsExtracted`, contrary to the
claim (which asserts unknown severities are still counted there). -/
theorem aggregate_consistency_cex :
    ((extract_pain_points
        (.ok fun _ => some ⟨"export is slow", "other", "severe", none, none, [], none, none⟩) 50
        ⟨[⟨1, "reddit", "t3_a", "ugh", none, none, none, none, none, none, false⟩],
          [], []⟩).1.sessions.map fun s =>
        (s.status, s.pain_points_extracted, breakdown_sum (s.severity_breakdown.getD [])))
      = [("completed", 1, 0)] ∧
    (((extract_pain_points
        (.ok fun _ => some ⟨"export is slow", "other", "severe", none, none, [], none, none⟩) 50
        ⟨[⟨1, "reddit", "t3_a", "ugh", none, none, none, none, none, none, false⟩],
          [], []⟩).1.sessions.all fun s =>
        !(s.status == "completed") ||
          (breakdown_sum (s.severity_breakdown.getD []) == s.pain_points_extracted))
      = false) := by
  constructor <;> decide

/-- Witness for C7 (amended): a run whose single extraction has the known
severity "high" yields a session whose category breakdown sums to 1, via the
amended theorem. -/
theorem aggregate_consistency_witness :
    ((extract_pain_points
        (.ok fun _ => some ⟨"exports crash", "reliability", "high", none, none, [], none, none⟩) 50
        ⟨[⟨1, "reddit", "t3_b", "slow", none, none, none, none, none, none, false⟩],
          [], []⟩).1.sessions.map fun s =>
        breakdown_sum (s.category_breakdown.getD [])) = [1] := by
  obtain ⟨s, hs, h⟩ := aggregate_consistency
    (.ok fun _ => some ⟨"exports crash", "reliability", "high", none, none, [], none, none⟩) 50
    ⟨[⟨1, "reddit", "t3_b", "slow", none, none, none, none, none, none, false⟩], [], []⟩
  have hstat : ((extract_pain_points
      (.ok fun _ => some ⟨"exports crash", "reliability", "high", none, none, [], none, none⟩) 50
      ⟨[⟨1, "reddit", "t3_b", "slow", none, none, none, none, none, none, false⟩],
        [], []⟩).1.sessions.map ExtractionSession.status) = ["completed"] := by decide
  have hppe : ((extract_pain_points
      (.ok fun _ => some ⟨"exports crash", "reliability", "high", none, none, [], none, none⟩) 50
      ⟨[⟨1, "reddit", "t3_b", "slow", none, none, none, none, none, none, false⟩],
        [], []⟩).1.sessions.map ExtractionSession.pain_points_extracted) = [1] := by decide
  rw [hs] at hstat hppe ⊢
  simp only [List.nil_append, List.map_cons, List.map_nil, List.cons.injEq, and_true] at hstat hppe ⊢
  obtain ⟨hcat, -, -⟩ := h hstat
  rw [hcat]
  exact hppe

end PainPointAnalyzer
